import Mathlib

/-!
Verification of the qualite runner (src/qualite.ts, src/utils.ts) against its
specification. The TypeScript source is shallowly embedded below: pure helpers
become Lean functions, the external process spawning primitive becomes an
explicit oracle parameter of type String to ChildProcess, environment variables
become an explicit Env record, and the reactive pipeline of runAll becomes
explicit list processing. Completion order of the bounded parallel executor is
abstracted to subscription order, which does not affect any of the stated
properties (they are about the collected result set, not timing).
-/

namespace Qualite

/-- Verbosity enum from src/qualite.ts. -/
inductive Verbosity
  | Silent
  | LogErrors
  | LogEverything
deriving DecidableEq, Repr

/-- Files selection strategy enum from src/qualite.ts. -/
inductive Files
  | AllInPwd
  | IndexedInGit
  | ModifiedSinceOriginMasterInGit
  | StagedInGit
deriving DecidableEq, Repr

/-- ChildProcess record from src/utils.ts. The code field is the numeric exit
code when the process produced one (some 0 on success, some k on a non zero
exit); none models the JS undefined code of a process that failed to spawn. -/
structure ChildProcess where
  code : Option Int
  stdout : String
  stderr : String
deriving DecidableEq, Repr

/-- ChildProcessAndFileName from src/qualite.ts: a ChildProcess tagged with the
file the command ran on. This is the per file ExecutionResult of the spec. -/
structure ChildProcessAndFileName where
  filename : String
  code : Option Int
  stdout : String
  stderr : String
deriving DecidableEq, Repr

/-- Whitespace recognized by the JS String.prototype.trim calls in the source
(the common ASCII whitespace characters). -/
def isJsWhitespace (c : Char) : Bool :=
  c = ' ' || c = '\t' || c = '\n' || c = '\r' || c = '\x0b' || c = '\x0c'

/-- Drop leading whitespace from a character list. -/
def trimLeftChars (l : List Char) : List Char := l.dropWhile isJsWhitespace

/-- Model of the JS s.trim() used in src/utils.ts and src/qualite.ts: drop
whitespace from both ends. -/
def jsTrim (s : String) : String :=
  String.mk ((trimLeftChars ((trimLeftChars s.data).reverse)).reverse)

/-- execP from src/utils.ts: run the spawn oracle on a shell command and trim
the captured stdout and stderr, exactly as the exec callback does. Errors are
already values of the oracle (the qualite code routes them back into the
stream with catchError), so the oracle is total. -/
def execP (spawn : String → ChildProcess) (cmd : String) : ChildProcess :=
  let r := spawn cmd
  { r with stdout := jsTrim r.stdout, stderr := jsTrim r.stderr }

/-- chalk green wrapping as used by the pino logger output (chalk 2.x ANSI
codes). -/
def chalkGreen (s : String) : String := "\x1b[32m" ++ s ++ "\x1b[39m"

/-- chalk red wrapping (chalk 2.x ANSI codes). -/
def chalkRed (s : String) : String := "\x1b[31m" ++ s ++ "\x1b[39m"

/-- JS template rendering of the process code field: a number prints its
decimal form, undefined prints the word undefined. -/
def codeToString : Option Int → String
  | some k => toString k
  | none => "undefined"

/-- messageForOneFile from src/qualite.ts. success is code strictly equal 0;
shouldLog is failure or LogEverything verbosity; the trimmed stdout is appended
on a new line only when shouldLog holds and the trimmed stdout is non empty;
failures carry an exit code suffix; the line is wrapped green or red. -/
def messageForOneFile (f s : String) (p : Option Int) (v : Verbosity) : String :=
  let symbol := if p = some 0 then "✓" else "✗"
  let stdOutTrimmed := jsTrim s
  let stdOut :=
    if (¬ p = some 0 ∨ v = Verbosity.LogEverything) ∧ stdOutTrimmed ≠ "" then
      "\n" ++ stdOutTrimmed
    else ""
  let exitCode := if p = some 0 then "" else " (exit code: " ++ codeToString p ++ ")"
  (if p = some 0 then chalkGreen else chalkRed) ("  " ++ symbol ++ " " ++ f ++ exitCode ++ stdOut)

/-- messageForSummary from src/qualite.ts: green total/total succeeded when
there is no failure, else red failed/total followed by the repeated full per
file line of every failure. -/
def messageForSummary (p : List ChildProcessAndFileName) (v : Verbosity) : String :=
  let failures := p.filter (fun a => decide (¬ a.code = some 0))
  let summary := "\nSummary: "
  if failures.length = 0 then
    chalkGreen (summary ++ toString p.length ++ "/" ++ toString p.length ++ " succeeded")
  else
    let failureLines :=
      failures.foldl
        (fun acc e => acc ++ messageForOneFile e.filename e.stdout e.code v ++ "\n") ""
    chalkRed (summary ++ toString failures.length ++ "/" ++ toString p.length ++
      " failed\n\n" ++ failureLines)

/-- messageForNoFile from src/qualite.ts. -/
def messageForNoFile : String := chalkGreen "No file to process"

/-- messageForHeader from src/qualite.ts, over the sorted file list. -/
def messageForHeader (f : List String) : String := toString f.length ++ " files to process:\n"

/-- Environment variables read by targetBranch. -/
structure Env where
  stashPullRequestBranchDestination : Option String
  changeTarget : Option String
deriving DecidableEq, Repr

/-- JS truthiness of an environment variable: present and non empty. -/
def envTruthy : Option String → Bool
  | none => false
  | some s => decide (¬ s = "")

/-- targetBranch from src/qualite.ts: the stash destination variable prefixed
with stash/ when truthy, else the change target variable prefixed with
upstream/ when truthy, else the hardcoded origin/master fallback. -/
def targetBranch (env : Env) : String :=
  if envTruthy env.stashPullRequestBranchDestination then
    "stash/" ++ env.stashPullRequestBranchDestination.getD ""
  else if envTruthy env.changeTarget then
    "upstream/" ++ env.changeTarget.getD ""
  else
    "origin/master"

/-- Split a character list at every match of the regex used by linesFromStdout,
namely a newline optionally preceded by a carriage return. A lone carriage
return is not a separator. -/
def splitLinesAux : List Char → List Char → List String
  | [], acc => [String.mk acc.reverse]
  | '\n' :: rest, acc => String.mk acc.reverse :: splitLinesAux rest []
  | '\r' :: '\n' :: rest, acc => String.mk acc.reverse :: splitLinesAux rest []
  | c :: rest, acc => splitLinesAux rest (c :: acc)

/-- JS a.split on the line separator regex: always yields at least one segment,
in particular the empty string splits to a single empty segment. -/
def splitLines (a : String) : List String := splitLinesAux a.data []

/-- linesFromStdout from src/qualite.ts: the immutable Set of the split
segments. Note the source has no guard for empty input, so empty stdout yields
the singleton set holding the empty string. -/
def linesFromStdout (a : String) : Finset String := (splitLines a).toFinset

/-- Shell command string of the staged diff. -/
def gitStagedCmd : String := "git --no-pager diff --name-only --diff-filter=AM --staged"

/-- Shell command string of the branch against target diff. -/
def gitDiffCmd (env : Env) : String :=
  "git --no-pager diff --name-only --diff-filter=AM " ++ targetBranch env ++ "...HEAD"

/-- indexedInGit from src/qualite.ts. -/
def indexedInGit (spawn : String → ChildProcess) : Finset String :=
  linesFromStdout (execP spawn "git ls-files").stdout

/-- stagedInGit from src/qualite.ts. -/
def stagedInGit (spawn : String → ChildProcess) : Finset String :=
  linesFromStdout (execP spawn gitStagedCmd).stdout

/-- modifiedSinceOriginMasterInGit from src/qualite.ts: forkJoin of the two
diffs, then linesFromStdout applied to the concatenation of the two stdout
strings (the source concatenates the raw trimmed stdouts with no separator
before parsing). -/
def modifiedSinceOriginMasterInGit (spawn : String → ChildProcess) (env : Env) : Finset String :=
  let a := execP spawn (gitDiffCmd env)
  let b := execP spawn gitStagedCmd
  linesFromStdout (a.stdout ++ b.stdout)

/-- allInPwd from src/qualite.ts, over an explicit recursive directory listing
collaborator. -/
def allInPwd (pwdListing : List String) : Finset String := pwdListing.toFinset

/-- Strategy dispatch of src/qualite.ts (the underscore prefixed filesToRunOn
helper): the map from Files values to selectors. -/
def selectFiles (spawn : String → ChildProcess) (env : Env) (pwdListing : List String) :
    Files → Finset String
  | Files.AllInPwd => allInPwd pwdListing
  | Files.IndexedInGit => indexedInGit spawn
  | Files.ModifiedSinceOriginMasterInGit => modifiedSinceOriginMasterInGit spawn env
  | Files.StagedInGit => stagedInGit spawn

/-- Pattern in the embedding: the test function of a RegExp. -/
abbrev Pattern := String → Bool

/-- Whitelist stage of filesToRunOn: when the whitelist is non empty keep the
files matching at least one whitelist pattern, else keep all. -/
def applyWhitelist (wl : List Pattern) (files : Finset String) : Finset String :=
  if 0 < wl.length then files.filter (fun f => wl.any (fun wlp => wlp f)) else files

/-- Blacklist stage of filesToRunOn: when the blacklist is non empty keep the
files matching no blacklist pattern, else keep all. -/
def applyBlacklist (bl : List Pattern) (files : Finset String) : Finset String :=
  if 0 < bl.length then files.filter (fun f => bl.all (fun blp => !blp f)) else files

/-- The two filter stages of filesToRunOn, whitelist first then blacklist. -/
def patternFilter (wl bl : List Pattern) (files : Finset String) : Finset String :=
  applyBlacklist bl (applyWhitelist wl files)

/-- The pipe body of filesToRunOn from src/qualite.ts: whitelist stage, then
blacklist stage, then lexicographic sort. -/
def filterAndSort (wl bl : List Pattern) (files : Finset String) : List String :=
  (patternFilter wl bl files).sort (· ≤ ·)

/-- filesToRunOn from src/qualite.ts: strategy dispatch piped through the two
filter stages and the sort. -/
def filesToRunOn (spawn : String → ChildProcess) (env : Env) (pwdListing : List String)
    (fi : Files) (wl bl : List Pattern) : List String :=
  filterAndSort wl bl (selectFiles spawn env pwdListing fi)

/-- Shell command run per file by execProcess: the command template, the file
name, and the stderr into stdout redirection. -/
def execCommand (p f : String) : String := p ++ " " ++ f ++ " 2>&1"

/-- execProcess from src/qualite.ts: run the per file command and tag the
result with the file name; catchError makes an error result an ordinary
value. -/
def execProcess (spawn : String → ChildProcess) (p f : String) : ChildProcessAndFileName :=
  let r := execP spawn (execCommand p f)
  { filename := f, code := r.code, stdout := r.stdout, stderr := r.stderr }

/-- runInParallel from src/qualite.ts: mergeMap of execProcess over the file
array with concurrency cap m. The cap only bounds simultaneous processes; the
collected results are one per file, modeled here in subscription order. -/
def runInParallel (spawn : String → ChildProcess) (f : List String) (p : String)
    (m : Nat) : List ChildProcessAndFileName :=
  f.map (execProcess spawn p)

/-- The process exit code computed at the end of runAll: 1 when some collected
result has a code other than strictly 0, else 0. -/
def overallExitCode (results : List ChildProcessAndFileName) : Nat :=
  if results.any (fun b => decide (¬ b.code = some 0)) then 1 else 0

/-- Observable output of a completed run: the lines handed to the logger, the
process exit code, and the shell commands spawned for the per file work. -/
structure RunOutput where
  messages : List String
  exitCode : Nat
  spawned : List String
deriving DecidableEq, Repr

/-- runAll from src/qualite.ts: header line, one line per collected result,
summary line, and the final process exit. -/
def runAll (spawn : String → ChildProcess) (f : List String) (p : String) (m : Nat)
    (v : Verbosity) : RunOutput :=
  let results := runInParallel spawn f p m
  { messages := messageForHeader f ::
      results.map (fun e => messageForOneFile e.filename e.stdout e.code v) ++
      [messageForSummary results v]
    exitCode := overallExitCode results
    spawned := f.map (execCommand p) }

/-- runProcessForEachFile from src/qualite.ts: resolve and filter the file set;
an empty set short circuits to the no file message and a success exit with no
spawns, else runAll does the work. -/
def runProcessForEachFile (spawn : String → ChildProcess) (p : String) (fi : Files)
    (wl bl : List Pattern) (m : Nat) (v : Verbosity) (env : Env)
    (pwdListing : List String) : RunOutput :=
  let files := filesToRunOn spawn env pwdListing fi wl bl
  if files.length = 0 then
    { messages := [messageForNoFile], exitCode := 0, spawned := [] }
  else
    runAll spawn files p m v

/-- A string n occurs as a contiguous substring of h. -/
def strContains (h n : String) : Prop := ∃ a b, h = a ++ n ++ b

/-- Claim C2 counterexample oracle: branch diff prints x, staged diff prints y. -/
def c2Spawn : String → ChildProcess :=
  fun c => if c = gitStagedCmd then ⟨some 0, "y", ""⟩ else ⟨some 0, "x", ""⟩


theorem mem_applyWhitelist (wl : List Pattern) (files : Finset String) (f : String) :
    f ∈ applyWhitelist wl files ↔ f ∈ files ∧ (wl = [] ∨ ∃ q ∈ wl, q f = true) := by
  unfold applyWhitelist
  rcases eq_or_ne wl [] with h | h
  · subst h; simp
  · have hl : 0 < wl.length := List.length_pos.mpr h
    rw [if_pos hl]
    simp [Finset.mem_filter, List.any_eq_true, h]

theorem mem_applyBlacklist (bl : List Pattern) (files : Finset String) (f : String) :
    f ∈ applyBlacklist bl files ↔ f ∈ files ∧ ∀ q ∈ bl, q f = false := by
  unfold applyBlacklist
  rcases eq_or_ne bl [] with h | h
  · subst h; simp
  · have hl : 0 < bl.length := List.length_pos.mpr h
    rw [if_pos hl]
    simp [Finset.mem_filter, List.all_eq_true]

/-- Claim C3: for every file set, whitelist and blacklist, the filtered output
keeps exactly the files of the input that match at least one whitelist pattern
when the whitelist is non empty (all files when it is empty) and that match no
blacklist pattern (none dropped when the blacklist is empty), and the output
list is sorted lexicographically. -/
theorem c3_patternFilter_spec (files : Finset String) (wl bl : List Pattern) :
    (∀ f : String, f ∈ filterAndSort wl bl files ↔
        f ∈ files ∧ (wl = [] ∨ ∃ q ∈ wl, q f = true) ∧ (∀ q ∈ bl, q f = false)) ∧
    (filterAndSort wl bl files).Sorted (· ≤ ·) := by
  constructor
  · intro f
    rw [filterAndSort, Finset.mem_sort, patternFilter, mem_applyBlacklist, mem_applyWhitelist]
    tauto
  · exact Finset.sort_sorted _ _

theorem patternFilter_idem (wl bl : List Pattern) (files : Finset String) :
    patternFilter wl bl (patternFilter wl bl files) = patternFilter wl bl files := by
  apply Finset.ext
  intro f
  simp only [patternFilter, mem_applyBlacklist, mem_applyWhitelist]
  tauto

/-- Claim C9: applying the pattern filter a second time, with the same
whitelist and blacklist, to its own output returns that output unchanged, for
every input file set and every pair of pattern lists; and the blacklist stage
only ever removes files from its input, never adds any. -/
theorem c9_filter_idempotent (files : Finset String) (wl bl : List Pattern) :
    filterAndSort wl bl (filterAndSort wl bl files).toFinset = filterAndSort wl bl files ∧
    ∀ s : Finset String, applyBlacklist bl s ⊆ s := by
  constructor
  · show (patternFilter wl bl ((patternFilter wl bl files).sort (· ≤ ·)).toFinset).sort (· ≤ ·) = _
    rw [Finset.sort_toFinset, patternFilter_idem]
    rfl
  · intro s
    unfold applyBlacklist
    split
    · exact Finset.filter_subset _ _
    · exact subset_rfl

/-- Claim C1 evaluation, refuting the claim on the code: linesFromStdout in
src/qualite.ts has no empty string guard, so empty stdout parses to the
singleton set holding the empty string, for the plain function and for each
VCS backed strategy whose underlying command prints nothing. The spec demands
the guard, which the revised qualite.ts elsewhere in the repository
implements, so this is recorded as a code bug. -/
theorem c1_linesFromStdout_empty :
    linesFromStdout "" = {""} ∧
    indexedInGit (fun _ => ⟨some 0, "", ""⟩) = {""} ∧
    stagedInGit (fun _ => ⟨some 0, "", ""⟩) = {""} ∧
    modifiedSinceOriginMasterInGit (fun _ => ⟨some 0, "", ""⟩) ⟨none, none⟩ = {""} := by
  decide

theorem codeFailed_iff (c : Option Int) :
    (decide (¬ c = some 0) = true) ↔ ((∃ k : Int, c = some k ∧ k ≠ 0) ∨ c = none) := by
  cases c <;> simp

/-- Claim C4: when a run completes, the process exit code of runAll is 1
exactly when at least one collected result has a non zero exit code or no
numeric code at all (failed to spawn), and 0 exactly when every collected
result has exit code 0. -/
theorem c4_overall_status (spawn : String → ChildProcess) (fls : List String) (p : String)
    (m : Nat) (v : Verbosity) :
    ((runAll spawn fls p m v).exitCode = 1 ↔
      ∃ r ∈ runInParallel spawn fls p m, (∃ k : Int, r.code = some k ∧ k ≠ 0) ∨ r.code = none) ∧
    ((runAll spawn fls p m v).exitCode = 0 ↔
      ∀ r ∈ runInParallel spawn fls p m, r.code = some 0) := by
  have hex : (runAll spawn fls p m v).exitCode = overallExitCode (runInParallel spawn fls p m) := rfl
  rw [hex, overallExitCode]
  by_cases h : (runInParallel spawn fls p m).any (fun b => decide (¬ b.code = some 0)) = true
  · rw [if_pos h]
    rw [List.any_eq_true] at h
    obtain ⟨r, hr, hrf⟩ := h
    rw [codeFailed_iff] at hrf
    constructor
    · constructor
      · intro _
        exact ⟨r, hr, hrf⟩
      · intro _
        rfl
    · constructor
      · intro h10
        exact absurd h10 one_ne_zero
      · intro hall
        exfalso
        have h0 := hall r hr
        rw [h0] at hrf
        rcases hrf with ⟨k, hk, hk0⟩ | hnone
        · exact hk0 (Option.some_injective _ hk.symm)
        · cases hnone
  · rw [if_neg h]
    have hall : ∀ r ∈ runInParallel spawn fls p m, r.code = some 0 := by
      intro r hr
      by_contra hne
      apply h
      rw [List.any_eq_true]
      exact ⟨r, hr, by simpa using hne⟩
    constructor
    · constructor
      · intro h01
        exact absurd h01 zero_ne_one
      · rintro ⟨r, hr, hrf⟩
        have h0 := hall r hr
        rcases hrf with ⟨k, hk, hk0⟩ | hnone
        · rw [h0] at hk
          exact absurd (Option.some_injective _ hk.symm) hk0
        · rw [h0] at hnone
          cases hnone
    · exact ⟨fun _ => hall, fun _ => rfl⟩

theorem execProcess_filename (spawn : String → ChildProcess) (p f : String) :
    (execProcess spawn p f).filename = f := rfl

/-- Claim C5: the completed run produces exactly one ExecutionResult per file
of the filtered file set, in the sense that the filenames of the collected
results are exactly the filtered file list, which has no duplicates; this
holds for every spawn oracle, in particular ones that fail some files, so a
failing file never prevents the result of any other file. -/
theorem c5_one_result_per_file (spawn : String → ChildProcess) (env : Env)
    (pwdListing : List String) (fi : Files) (wl bl : List Pattern) (p : String) (m : Nat) :
    ((runInParallel spawn (filesToRunOn spawn env pwdListing fi wl bl) p m).map
        (fun r => r.filename) = filesToRunOn spawn env pwdListing fi wl bl) ∧
    (filesToRunOn spawn env pwdListing fi wl bl).Nodup ∧
    ((runInParallel spawn (filesToRunOn spawn env pwdListing fi wl bl) p m).length
        = (filesToRunOn spawn env pwdListing fi wl bl).length) := by
  refine ⟨?_, ?_, ?_⟩
  · rw [runInParallel, List.map_map]
    have : ((fun r : ChildProcessAndFileName => r.filename) ∘ execProcess spawn p) = id := by
      funext x
      rfl
    rw [this, List.map_id]
  · exact Finset.sort_nodup _ _
  · rw [runInParallel, List.length_map]

/-- Claim C6: if the filtered file set is empty, the run spawns no subprocess,
reports the No file to process message, and exits with success status 0. -/
theorem c6_empty_set (spawn : String → ChildProcess) (p : String) (fi : Files)
    (wl bl : List Pattern) (m : Nat) (v : Verbosity) (env : Env) (pwdListing : List String)
    (h : filesToRunOn spawn env pwdListing fi wl bl = []) :
    runProcessForEachFile spawn p fi wl bl m v env pwdListing =
      { messages := [chalkGreen "No file to process"], exitCode := 0, spawned := [] } := by
  unfold runProcessForEachFile
  rw [h]
  rfl

/-- Claim C6 witness: a concrete run whose filtered set is empty. -/
theorem c6_empty_set_witness :
    runProcessForEachFile (fun _ => ⟨some 0, "", ""⟩) "eslint" Files.IndexedInGit
      [fun _ => false] [] 4 Verbosity.LogErrors ⟨none, none⟩ [] =
      { messages := [chalkGreen "No file to process"], exitCode := 0, spawned := [] } := by
  apply c6_empty_set
  show filterAndSort _ _ _ = _
  rw [filterAndSort]
  have h : patternFilter [fun _ => false] []
      (selectFiles (fun _ => ⟨some 0, "", ""⟩) ⟨none, none⟩ [] Files.IndexedInGit) = ∅ := by
    decide
  rw [h]
  exact Finset.sort_empty _

theorem checkLit : ("  " ++ "✓" ++ " " : String) = "  ✓ " := by decide

theorem crossLit : ("  " ++ "✗" ++ " " : String) = "  ✗ " := by decide

theorem failedLit : (" failed\n\n" : String) = " failed" ++ "\n\n" := by decide

theorem strContains_empty (h : String) : strContains h "" :=
  ⟨h, "", by simp [String.append_empty]⟩

theorem strContains_append_right (h n c : String) (hc : strContains h n) :
    strContains (h ++ c) n := by
  obtain ⟨a, b, e⟩ := hc
  exact ⟨a, b ++ c, by rw [e]; simp [String.append_assoc]⟩

theorem strContains_append_left (h n c : String) (hc : strContains h n) :
    strContains (c ++ h) n := by
  obtain ⟨a, b, e⟩ := hc
  exact ⟨c ++ a, b, by rw [e]; simp [String.append_assoc]⟩

theorem messageForOneFile_success (f s : String) (v : Verbosity) :
    messageForOneFile f s (some 0) v =
      chalkGreen ("  ✓ " ++ f ++
        (if v = Verbosity.LogEverything ∧ jsTrim s ≠ "" then "\n" ++ jsTrim s else "")) := by
  simp only [messageForOneFile, not_true, false_or, if_true]
  rw [String.append_empty, checkLit]

theorem messageForOneFile_failed (f s : String) (p : Option Int) (v : Verbosity)
    (hp : ¬ p = some 0) :
    messageForOneFile f s p v =
      chalkRed ("  ✗ " ++ f ++ (" (exit code: " ++ codeToString p ++ ")") ++
        (if jsTrim s ≠ "" then "\n" ++ jsTrim s else "")) := by
  simp only [messageForOneFile]
  rw [if_neg hp, if_neg hp, if_neg hp]
  have hcond : ((¬ p = some 0 ∨ v = Verbosity.LogEverything) ∧ jsTrim s ≠ "")
      ↔ (jsTrim s ≠ "") := ⟨fun h => h.2, fun h => ⟨Or.inl hp, h⟩⟩
  rw [if_congr hcond rfl rfl, crossLit]

/-- Claim C7: a successful result under LogErrors verbosity renders as the
minimal one line success marker with no output body; a failed result renders,
at every verbosity, a line carrying the exit code suffix and the full captured
output body (the captured output as stored by execP, which trims it). -/
theorem c7_per_file_rendering (f s : String) (p : Option Int) (v : Verbosity) :
    (messageForOneFile f s (some 0) Verbosity.LogErrors = chalkGreen ("  ✓ " ++ f)) ∧
    (¬ p = some 0 →
      strContains (messageForOneFile f s p v) (" (exit code: " ++ codeToString p ++ ")") ∧
      strContains (messageForOneFile f s p v) (jsTrim s)) := by
  constructor
  · rw [messageForOneFile_success]
    have hno : ¬ (Verbosity.LogErrors = Verbosity.LogEverything ∧ jsTrim s ≠ "") := by
      rintro ⟨h, _⟩
      cases h
    rw [if_neg hno, String.append_empty]
  · intro hp
    rw [messageForOneFile_failed f s p v hp]
    by_cases ht : jsTrim s = ""
    · have hcond : ¬ (jsTrim s ≠ "") := by simpa using ht
      rw [if_neg hcond, String.append_empty]
      constructor
      · exact ⟨"\x1b[31m" ++ ("  ✗ " ++ f), "\x1b[39m",
          by simp only [chalkRed, String.append_assoc]⟩
      · rw [ht]
        exact strContains_empty _
    · have hcond : (jsTrim s ≠ "") := ht
      rw [if_pos hcond]
      constructor
      · exact ⟨"\x1b[31m" ++ ("  ✗ " ++ f), ("\n" ++ jsTrim s) ++ "\x1b[39m",
          by simp only [chalkRed, String.append_assoc]⟩
      · exact ⟨"\x1b[31m" ++ ("  ✗ " ++ f ++ (" (exit code: " ++ codeToString p ++ ")") ++ "\n"),
          "\x1b[39m", by simp only [chalkRed, String.append_assoc]⟩

/-- Claim C7 witness: the failed line of a concrete result contains its exit
code and its captured output. -/
theorem c7_per_file_rendering_witness :
    strContains (messageForOneFile "f1" "bad" (some 1) Verbosity.LogErrors)
      (" (exit code: " ++ codeToString (some 1) ++ ")") ∧
    strContains (messageForOneFile "f1" "bad" (some 1) Verbosity.LogErrors) (jsTrim "bad") :=
  (c7_per_file_rendering "f1" "bad" (some 1) Verbosity.LogErrors).2 (by decide)

/-- Claim C10: messageForOneFile depends on the captured output only through
its trimmed form, and whenever the trimmed output is empty the rendered line
omits the output body entirely, even for a failed result and at every
verbosity. -/
theorem c10_trim_and_omit (f : String) (p : Option Int) (v : Verbosity) :
    (∀ s₁ s₂ : String, jsTrim s₁ = jsTrim s₂ →
        messageForOneFile f s₁ p v = messageForOneFile f s₂ p v) ∧
    (∀ s : String, jsTrim s = "" →
        messageForOneFile f s p v =
          if p = some 0 then chalkGreen ("  ✓ " ++ f)
          else chalkRed ("  ✗ " ++ f ++ (" (exit code: " ++ codeToString p ++ ")"))) := by
  constructor
  · intro s₁ s₂ h
    simp only [messageForOneFile, h]
  · intro s hts
    by_cases hp : p = some 0
    · subst hp
      rw [messageForOneFile_success, if_pos rfl]
      have hno : ¬ (v = Verbosity.LogEverything ∧ jsTrim s ≠ "") := by
        rintro ⟨_, hne⟩
        exact hne hts
      rw [if_neg hno, String.append_empty]
    · rw [messageForOneFile_failed f s p v hp, if_neg hp]
      have hno : ¬ (jsTrim s ≠ "") := by simpa using hts
      rw [if_neg hno, String.append_empty]

/-- Claim C10 witness: a failed result whose captured output is only
whitespace renders with no body even under LogEverything. -/
theorem c10_trim_and_omit_witness :
    messageForOneFile "f1" " \n\t " (some 2) Verbosity.LogEverything =
      chalkRed ("  ✗ " ++ "f1" ++ (" (exit code: " ++ codeToString (some 2) ++ ")")) := by
  have h := (c10_trim_and_omit "f1" (some 2) Verbosity.LogEverything).2 " \n\t " (by decide)
  rw [h, if_neg (by decide)]

theorem foldl_lines_extend (g : ChildProcessAndFileName → String)
    (l : List ChildProcessAndFileName) (init n : String) (h : strContains init n) :
    strContains (l.foldl (fun acc e => acc ++ g e ++ "\n") init) n := by
  induction l generalizing init with
  | nil => exact h
  | cons x t ih =>
    exact ih _ (strContains_append_right _ _ _ (strContains_append_right _ _ _ h))

theorem foldl_lines_contains (g : ChildProcessAndFileName → String)
    (l : List ChildProcessAndFileName) (r : ChildProcessAndFileName) :
    ∀ init : String, r ∈ l →
      strContains (l.foldl (fun acc e => acc ++ g e ++ "\n") init) (g r) := by
  induction l with
  | nil =>
    intro init hr
    cases hr
  | cons x t ih =>
    intro init hr
    rcases List.mem_cons.mp hr with rfl | hmem
    · exact foldl_lines_extend g t (init ++ g r ++ "\n") (g r) ⟨init, "\n", rfl⟩
    · exact ih (init ++ g x ++ "\n") hmem

theorem messageForSummary_ok (results : List ChildProcessAndFileName) (v : Verbosity)
    (h : results.filter (fun a => decide (¬ a.code = some 0)) = []) :
    messageForSummary results v =
      chalkGreen ("\nSummary: " ++ toString results.length ++ "/" ++
        toString results.length ++ " succeeded") := by
  simp only [messageForSummary, h]
  rfl

theorem messageForSummary_failed (results : List ChildProcessAndFileName) (v : Verbosity)
    (h : ¬ results.filter (fun a => decide (¬ a.code = some 0)) = []) :
    messageForSummary results v =
      chalkRed ("\nSummary: " ++
        toString (results.filter (fun a => decide (¬ a.code = some 0))).length ++ "/" ++
        toString results.length ++ " failed\n\n" ++
        (results.filter (fun a => decide (¬ a.code = some 0))).foldl
          (fun acc e => acc ++ messageForOneFile e.filename e.stdout e.code v ++ "\n") "") := by
  have hlen : ¬ (results.filter (fun a => decide (¬ a.code = some 0))).length = 0 := by
    simpa [List.length_eq_zero] using h
  simp only [messageForSummary]
  rw [if_neg hlen]

/-- Claim C8: the summary reads total/total succeeded when no result failed,
and when failures exist it contains the failed/total header and, at every
verbosity, the full detail line of every failed file. -/
theorem c8_summary (results : List ChildProcessAndFileName) (v : Verbosity) :
    (results.filter (fun a => decide (¬ a.code = some 0)) = [] →
      messageForSummary results v =
        chalkGreen ("\nSummary: " ++ toString results.length ++ "/" ++
          toString results.length ++ " succeeded")) ∧
    (results.filter (fun a => decide (¬ a.code = some 0)) ≠ [] →
      strContains (messageForSummary results v)
        ("\nSummary: " ++
          toString (results.filter (fun a => decide (¬ a.code = some 0))).length ++ "/" ++
          toString results.length ++ " failed") ∧
      ∀ r ∈ results.filter (fun a => decide (¬ a.code = some 0)),
        strContains (messageForSummary results v)
          (messageForOneFile r.filename r.stdout r.code v)) := by
  constructor
  · exact messageForSummary_ok results v
  · intro h
    rw [messageForSummary_failed results v h]
    constructor
    · refine ⟨"\x1b[31m",
        "\n\n" ++ (results.filter (fun a => decide (¬ a.code = some 0))).foldl
          (fun acc e => acc ++ messageForOneFile e.filename e.stdout e.code v ++ "\n") "" ++
          "\x1b[39m", ?_⟩
      rw [failedLit]
      simp only [chalkRed, String.append_assoc]
    · intro r hr
      have hfl := foldl_lines_contains
        (fun e => messageForOneFile e.filename e.stdout e.code v)
        (results.filter (fun a => decide (¬ a.code = some 0))) r "" hr
      apply strContains_append_right
      apply strContains_append_left
      exact strContains_append_left _ _ _ hfl

/-- Claim C8 witness: a concrete failing summary contains the full detail line
of the failed file. -/
theorem c8_summary_witness :
    strContains (messageForSummary [⟨"f1", some 1, "bad", ""⟩] Verbosity.LogErrors)
      (messageForOneFile "f1" "bad" (some 1) Verbosity.LogErrors) := by
  have h := (c8_summary [⟨"f1", some 1, "bad", ""⟩] Verbosity.LogErrors).2 (by decide)
  exact h.2 ⟨"f1", some 1, "bad", ""⟩ (by decide)

/-- Claim C2 counterexample: with the branch diff printing x and the staged
diff printing y, the code parses the concatenation xy into the singleton set
holding xy, which is not the union of the two separately parsed sets; and the
target branch for a set stash destination variable is the prefixed string, not
the bare variable value. -/
theorem c2_counterexample :
    (modifiedSinceOriginMasterInGit c2Spawn ⟨none, none⟩ ≠
      linesFromStdout (execP c2Spawn (gitDiffCmd ⟨none, none⟩)).stdout ∪
      linesFromStdout (execP c2Spawn gitStagedCmd).stdout) ∧
    targetBranch ⟨some "master", none⟩ ≠ "master" := by
  decide

/-- Claim C2 amended: the ModifiedSinceUpstream file set is linesFromStdout of
the concatenation of the two trimmed diff outputs (not the union of their
separate parses), and the target branch is stash/ plus the stash destination
variable when that is set non empty, else upstream/ plus the change target
variable when that is set non empty, else origin/master. -/
theorem c2_upstream_strategy (spawn : String → ChildProcess) (env : Env) :
    (modifiedSinceOriginMasterInGit spawn env =
      linesFromStdout
        ((execP spawn (gitDiffCmd env)).stdout ++ (execP spawn gitStagedCmd).stdout)) ∧
    (∀ s : String, s ≠ "" → env.stashPullRequestBranchDestination = some s →
      targetBranch env = "stash/" ++ s) ∧
    (envTruthy env.stashPullRequestBranchDestination = false →
      ∀ t : String, t ≠ "" → env.changeTarget = some t →
        targetBranch env = "upstream/" ++ t) ∧
    (envTruthy env.stashPullRequestBranchDestination = false →
      envTruthy env.changeTarget = false →
      targetBranch env = "origin/master") := by
  refine ⟨rfl, ?_, ?_, ?_⟩
  · intro s hs he
    rw [targetBranch, he]
    rw [if_pos (by simp [envTruthy, hs])]
    simp
  · intro hfalse t ht he
    rw [targetBranch, he]
    rw [if_neg (by simp [hfalse]), if_pos (by simp [envTruthy, ht])]
    simp
  · intro h1 h2
    rw [targetBranch]
    rw [if_neg (by simp [h1]), if_neg (by simp [h2])]

/-- Claim C2 witness: the three target branch resolution cases at concrete
environments. -/
theorem c2_upstream_strategy_witness :
    targetBranch ⟨some "master", none⟩ = "stash/" ++ "master" ∧
    targetBranch ⟨none, some "dev"⟩ = "upstream/" ++ "dev" ∧
    targetBranch ⟨none, none⟩ = "origin/master" := by
  refine ⟨?_, ?_, ?_⟩
  · exact (c2_upstream_strategy (fun _ => ⟨some 0, "", ""⟩) ⟨some "master", none⟩).2.1
      "master" (by decide) rfl
  · exact (c2_upstream_strategy (fun _ => ⟨some 0, "", ""⟩) ⟨none, some "dev"⟩).2.2.1
      (by decide) "dev" (by decide) rfl
  · exact (c2_upstream_strategy (fun _ => ⟨some 0, "", ""⟩) ⟨none, none⟩).2.2.2
      (by decide) (by decide)

end Qualite

